import Mathlib

/-!
Verification development for the OBStools ATaCR module
(`obstools/atacr/classes.py`).

The Python source manipulates numpy arrays of complex floating-point
numbers.  We embed them shallowly: complex values become pairs of
rationals (`Cx`), numpy arrays become lists, elementwise numpy
operations become `List.zipWith`, and Python exceptions become
`Except PyErr`.  External library routines that live outside the
repository (scipy's `spectrogram`/`norm`, numpy's `std`/`median`,
`np.fft.ifft`, `utils.ftest`, `utils.coherence`, `utils.rotate_dir`)
are taken as explicit function parameters, so every theorem below
holds for any realization of them.
-/

/-- Complex numbers with rational components; the shallow embedding of
the complex floating-point values held in the numpy arrays of the
source. -/
structure Cx where
  re : ℚ
  im : ℚ
deriving DecidableEq, Repr

def Cx.zero : Cx := ⟨0, 0⟩

def Cx.one : Cx := ⟨1, 0⟩

instance : Zero Cx := ⟨Cx.zero⟩

instance : One Cx := ⟨Cx.one⟩

def Cx.add (z w : Cx) : Cx := ⟨z.re + w.re, z.im + w.im⟩

def Cx.sub (z w : Cx) : Cx := ⟨z.re - w.re, z.im - w.im⟩

def Cx.mul (z w : Cx) : Cx := ⟨z.re * w.re - z.im * w.im, z.re * w.im + z.im * w.re⟩

/-- Complex conjugate, embedding `np.conj`. -/
def Cx.conj (z : Cx) : Cx := ⟨z.re, -z.im⟩

def Cx.normSq (z : Cx) : ℚ := z.re * z.re + z.im * z.im

/-- Complex division `z / w = z * conj w / |w|²`, embedding the
elementwise `/` on complex numpy arrays. -/
def Cx.div (z w : Cx) : Cx :=
  ⟨(z.re * w.re + z.im * w.im) / Cx.normSq w,
   (z.im * w.re - z.re * w.im) / Cx.normSq w⟩

/-- Embedding of a real scalar into the complex values. -/
def Cx.ofQ (q : ℚ) : Cx := ⟨q, 0⟩

/-- Multiplication of a complex value by a real scalar (numpy
broadcasting of a real array against a complex one). -/
def Cx.smulQ (q : ℚ) (z : Cx) : Cx := ⟨q * z.re, q * z.im⟩

/-- Division of a complex value by a real scalar. -/
def Cx.divQ (z : Cx) (q : ℚ) : Cx := ⟨z.re / q, z.im / q⟩

instance : Add Cx := ⟨Cx.add⟩

instance : Sub Cx := ⟨Cx.sub⟩

instance : Mul Cx := ⟨Cx.mul⟩

theorem Cx.normSq_ne_zero (z : Cx) (hz : z ≠ 0) : Cx.normSq z ≠ 0 := by
  intro h
  apply hz
  simp only [Cx.normSq] at h
  have hre : z.re * z.re = 0 :=
    le_antisymm (by nlinarith [mul_self_nonneg z.im]) (mul_self_nonneg z.re)
  have him : z.im * z.im = 0 :=
    le_antisymm (by nlinarith [mul_self_nonneg z.re]) (mul_self_nonneg z.im)
  have h1 : z.re = 0 := mul_self_eq_zero.mp hre
  have h2 : z.im = 0 := mul_self_eq_zero.mp him
  have hz0 : z = ⟨0, 0⟩ := by cases z; simp_all
  rw [hz0]; rfl

/-- Dividing `a·z` by `z` recovers the real constant `a` when `z ≠ 0`. -/
theorem Cx.div_smul_self (a : ℚ) (z : Cx) (hz : z ≠ 0) :
    Cx.div (Cx.mul (Cx.ofQ a) z) z = Cx.ofQ a := by
  have hn : Cx.normSq z ≠ 0 := Cx.normSq_ne_zero z hz
  simp only [Cx.div, Cx.mul, Cx.ofQ, Cx.normSq] at *
  congr 1 <;> field_simp <;> ring

/-! ## Transfer-function model keys and the enabled-model tables

`DayNoise.__init__`, `StaNoise.__init__` and `EventStream.__init__`
each build a dictionary with exactly the six keys below mapping to
booleans; no other key is ever inserted. -/

/-- The six transfer-function model names appearing in the
`tf_list`/`ev_list` dictionaries of the source. -/
inductive ModelKey
  | zp    -- 'ZP'
  | z1    -- 'Z1'
  | z21   -- 'Z2-1'
  | zp21  -- 'ZP-21'
  | zh    -- 'ZH'
  | zph   -- 'ZP-H'
deriving DecidableEq, Repr

/-- Enabled-model dictionary built by `DayNoise.__init__`
(classes.py lines 297-302): `ncomp==2` enables only ZP; `ncomp==3`
enables Z1, Z2-1, ZH; any other value falls into the `else` branch
enabling all six. -/
def dayTfList (ncomp : ℕ) : ModelKey → Bool :=
  if ncomp = 2 then fun k =>
    match k with
    | .zp => true | .z1 => false | .z21 => false
    | .zp21 => false | .zh => false | .zph => false
  else if ncomp = 3 then fun k =>
    match k with
    | .zp => false | .z1 => true | .z21 => true
    | .zp21 => false | .zh => true | .zph => false
  else fun k =>
    match k with
    | .zp => true | .z1 => true | .z21 => true
    | .zp21 => true | .zh => true | .zph => true

/-- Enabled-model dictionary built by `StaNoise.__init__`
(classes.py lines 750-755).  Note that unlike `DayNoise`, the
`ncomp==3` row has `'ZH': False` and the `else` row has
`'ZH': False, 'ZP-H': False`. -/
def staTfList (ncomp : ℕ) : ModelKey → Bool :=
  if ncomp = 2 then fun k =>
    match k with
    | .zp => true | .z1 => false | .z21 => false
    | .zp21 => false | .zh => false | .zph => false
  else if ncomp = 3 then fun k =>
    match k with
    | .zp => false | .z1 => true | .z21 => true
    | .zp21 => false | .zh => false | .zph => false
  else fun k =>
    match k with
    | .zp => true | .z1 => true | .z21 => true
    | .zp21 => true | .zh => false | .zph => false

/-- Enabled-model dictionary built by `EventStream.__init__`
(classes.py lines 1227-1232); identical branch structure to
`dayTfList`. -/
def eventEvList (ncomp : ℕ) : ModelKey → Bool :=
  if ncomp = 2 then fun k =>
    match k with
    | .zp => true | .z1 => false | .z21 => false
    | .zp21 => false | .zh => false | .zph => false
  else if ncomp = 3 then fun k =>
    match k with
    | .zp => false | .z1 => true | .z21 => true
    | .zp21 => false | .zh => true | .zph => false
  else fun k =>
    match k with
    | .zp => true | .z1 => true | .z21 => true
    | .zp21 => true | .zh => true | .zph => true

/-- Modelled from the spec: the enabled-model table of spec section 3
(ncomp=2 enables only ZP; ncomp=3 enables Z1, Z2-1 and ZH; ncomp=4
enables all six).  This definition follows the spec's words, for
comparison with the source-derived tables above. -/
def specModelTable (ncomp : ℕ) : ModelKey → Bool :=
  if ncomp = 2 then fun k =>
    match k with
    | .zp => true | .z1 => false | .z21 => false
    | .zp21 => false | .zh => false | .zph => false
  else if ncomp = 3 then fun k =>
    match k with
    | .zp => false | .z1 => true | .z21 => true
    | .zp21 => false | .zh => true | .zph => false
  else if ncomp = 4 then fun k =>
    match k with
    | .zp => true | .z1 => true | .z21 => true
    | .zp21 => true | .zh => true | .zph => true
  else fun _ => false

/-- Claim C1 (counterexample): the claim fails on the code — at
`ncomp = 3` the `StaNoise.__init__` table disables the ZH model while
the spec section 3 table enables it, so not every component produces
exactly the spec table. -/
theorem c1_counterexample :
    staTfList 3 ModelKey.zh ≠ specModelTable 3 ModelKey.zh := by
  decide

/-- Claim C1 (amended): for every valid `ncomp ∈ {2,3,4}`,
`DayNoise.__init__` and `EventStream.__init__` produce exactly the
spec section 3 enabled-model table, while `StaNoise.__init__`
produces the spec table with the two rotated-horizontal models ZH and
ZP-H forced to disabled; no model outside the six-key set is ever
enabled (the dictionaries have exactly these six keys). -/
theorem c1_model_tables (n : ℕ) (hn : n = 2 ∨ n = 3 ∨ n = 4) :
    (∀ k, dayTfList n k = specModelTable n k) ∧
    (∀ k, eventEvList n k = specModelTable n k) ∧
    (∀ k, staTfList n k =
      (specModelTable n k && !(k = ModelKey.zh ∨ k = ModelKey.zph))) := by
  rcases hn with h | h | h <;> subst h <;>
    refine ⟨fun k => ?_, fun k => ?_, fun k => ?_⟩ <;> cases k <;> decide

/-- Claim C1 (witness): concrete instantiation at `ncomp = 3`. -/
theorem c1_model_tables_witness :
    (∀ k, dayTfList 3 k = specModelTable 3 k) ∧
    (∀ k, eventEvList 3 k = specModelTable 3 k) ∧
    (∀ k, staTfList 3 k =
      (specModelTable 3 k && !(k = ModelKey.zh ∨ k = ModelKey.zph))) :=
  c1_model_tables 3 (Or.inr (Or.inl rfl))

/-! ## Component counting in `DayNoise.__init__` (claim C10)

Classes.py lines 293-294:
`self.ncomp = np.sum(1 for tr in Stream(traces=[tr1,tr2,trZ,trP]) if np.any(tr.data))`.
A trace's data array is truthy under `np.any` exactly when it has a
nonzero sample (an empty array gives `False`). -/

/-- Embedding of `np.any(tr.data)`: true iff some sample is nonzero. -/
def npAny (xs : List ℚ) : Bool :=
  xs.any (fun x => decide (x ≠ 0))

/-- Embedding of the `ncomp` computation of `DayNoise.__init__`: count
of the four traces whose data passes `np.any`. -/
def dayNcomp (tr1 tr2 trZ trP : List ℚ) : ℕ :=
  ([tr1, tr2, trZ, trP].filter npAny).length

/-- Claim C10: `ncomp` counts exactly the traces containing at least
one nonzero sample, and a present but all-zero (or empty) trace
yields the same `ncomp` — hence the same enabled-model table — as an
absent (empty) trace. -/
theorem c10_ncomp_nonzero (tr1 tr2 trZ trP : List ℚ)
    (hP : ∀ x ∈ trP, x = 0) :
    dayNcomp tr1 tr2 trZ trP =
      ([tr1, tr2, trZ, trP].countP (fun t => decide (∃ x ∈ t, x ≠ 0))) ∧
    dayNcomp tr1 tr2 trZ trP = dayNcomp tr1 tr2 trZ [] ∧
    (∀ k, dayTfList (dayNcomp tr1 tr2 trZ trP) k =
          dayTfList (dayNcomp tr1 tr2 trZ []) k) := by
  have hany : ∀ t : List ℚ, npAny t = decide (∃ x ∈ t, x ≠ 0) := by
    intro t
    by_cases h : ∃ x ∈ t, x ≠ 0
    · simp [npAny, List.any_eq_true, h]
    · simp only [npAny]
      rw [decide_eq_false h]
      rw [List.any_eq_false]
      intro x hx
      simp only [decide_eq_true_eq] at *
      intro hne
      exact h ⟨x, hx, hne⟩
  have hPfalse : npAny trP = false := by
    rw [hany]
    simp only [decide_eq_false_iff_not]
    rintro ⟨x, hx, hne⟩
    exact hne (hP x hx)
  have key : dayNcomp tr1 tr2 trZ trP = dayNcomp tr1 tr2 trZ [] := by
    simp only [dayNcomp]
    have h4 : [tr1, tr2, trZ, trP] = [tr1, tr2, trZ] ++ [trP] := rfl
    have h4b : [tr1, tr2, trZ, ([] : List ℚ)] = [tr1, tr2, trZ] ++ [[]] := rfl
    have e1 : List.filter npAny [trP] = [] := by
      simp [List.filter_cons, hPfalse]
    have e2 : List.filter npAny [([] : List ℚ)] = [] := by
      simp [List.filter_cons, npAny]
    rw [h4, h4b, List.filter_append, List.filter_append, e1, e2]
  refine ⟨?_, key, fun k => by rw [key]⟩
  simp only [dayNcomp, List.countP_eq_length_filter]
  congr 1
  apply List.filter_congr
  intro t _
  exact hany t

/-- Claim C10 (witness): a present but all-zero pressure trace next to
three nonzero traces gives `ncomp = 3`, as if the pressure channel
did not exist. -/
theorem c10_ncomp_nonzero_witness :
    dayNcomp [1] [1] [1] [0, 0] =
      ([[1], [1], [1], [0, 0]].countP
        (fun t : List ℚ => decide (∃ x ∈ t, x ≠ 0))) ∧
    dayNcomp [1] [1] [1] [0, 0] = dayNcomp [1] [1] [1] [] ∧
    (∀ k, dayTfList (dayNcomp [1] [1] [1] [0, 0]) k =
          dayTfList (dayNcomp [1] [1] [1] []) k) :=
  c10_ncomp_nonzero [1] [1] [1] [0, 0] (by decide)

/-! ## The QC rejection loop (claims C2, C3)

`DayNoise.QC_daily_spectra` (classes.py lines 486-530) and
`StaNoise.QC_sta_spectra` (lines 843-886) run a line-for-line
identical rejection loop; the embedding below covers both.  The
de-meaned log-spectra `dsls` (one 2-D array per channel, stored here
as a list of window-columns), scipy's `norm`, numpy's per-axis `std`
and `median`, the scalar `np.std` on the penalty vector, and
`utils.ftest` (repository code outside `src/`) enter as parameters of
the environment, so every theorem holds for any realization of
them. -/

/-- Environment of the QC loop: per-channel de-meaned matrices plus
the external numerical routines the loop calls. -/
structure QCEnv where
  dsls : List (List (List ℚ))
  stdCols : List (List ℚ) → List ℚ
  norm2 : List ℚ → ℚ
  med : List ℚ → ℚ
  stdPen : List ℚ → ℚ
  ftest : List ℚ → List ℚ → ℚ

/-- Embedding of `indwin = np.argwhere(goodwins==True)`: the sorted
indices of the windows currently marked good. -/
def indwinOf (good : List Bool) : List ℕ :=
  (List.range good.length).filter (fun i => good.getD i false)

/-- Embedding of the `normvar` loop: for each position `ii` in the
good-set, delete that window from the index list and take the norm of
the per-frequency standard deviation of the remaining columns
(`normvar[ii] = norm(np.std(dsl[:, ind], axis=1), ord=2)`). -/
def normvarOf (env : QCEnv) (dsl : List (List ℚ)) (indwin : List ℕ) : List ℚ :=
  (List.range indwin.length).map (fun ii =>
    env.norm2 (env.stdCols ((indwin.eraseIdx ii).map (fun j => dsl.getD j []))))

/-- Embedding of `ubernorm[ind_u, :] = np.median(normvar) - normvar`. -/
def ubernormOf (env : QCEnv) (dsl : List (List ℚ)) (indwin : List ℕ) : List ℚ :=
  (normvarOf env dsl indwin).map
    (fun v => env.med (normvarOf env dsl indwin) - v)

/-- Embedding of `penalty = np.sum(ubernorm, axis=0)`: one scalar per
good window, summing the per-channel deviation measures. -/
def penaltyOf (env : QCEnv) (indwin : List ℕ) : List ℚ :=
  (List.range indwin.length).map (fun ii =>
    (env.dsls.map (fun dsl => (ubernormOf env dsl indwin).getD ii 0)).sum)

/-- Embedding of `kill = penalty > tol*np.std(penalty)`. -/
def killOf (env : QCEnv) (tol : ℚ) (penalty : List ℚ) : List Bool :=
  penalty.map (fun p => decide (p > tol * env.stdPen penalty))

/-- Boolean-mask selection: the elements of `xs` at positions where
`mask` holds value `b` (embedding `penalty[np.argwhere(kill==False)]`
and `indwin[kill==True]`). -/
def selectWhere {α : Type} (b : Bool) (mask : List Bool) (xs : List α) : List α :=
  ((mask.zip xs).filter (fun pr => pr.1 == b)).map (fun pr => pr.2)

/-- Embedding of `goodwins[indwin[kill==True]] = False`: the mask with
the killed absolute indices set to `False`. -/
def removeWins (good : List Bool) (killed : List ℕ) : List Bool :=
  (List.range good.length).map
    (fun i => if i ∈ killed then false else good.getD i false)

/-- One iteration of the rejection loop body: `none` means the loop
stops with the mask unchanged (either no window was flagged, or the
F-test probability was not strictly below `alpha`); `some g` means
the flagged windows were removed and the loop repeats on `g`. -/
def qcIter (env : QCEnv) (tol alpha : ℚ) (good : List Bool) : Option (List Bool) :=
  let indwin := indwinOf good
  let penalty := penaltyOf env indwin
  let kill := killOf env tol penalty
  if kill.count true = 0 then none
  else if env.ftest penalty (selectWhere false kill penalty) < alpha then
    some (removeWins good (selectWhere true kill indwin))
  else none

/-- The `while moveon == False` loop, with explicit fuel; returns
`none` only if the fuel runs out before the loop's own exit
condition fires. -/
def qcLoop (env : QCEnv) (tol alpha : ℚ) : ℕ → List Bool → Option (List Bool)
  | 0, _ => none
  | fuel + 1, good =>
    match qcIter env tol alpha good with
    | none => some good
    | some g2 => qcLoop env tol alpha fuel g2

/-- The penalty vector of the current good-set, as computed at the top
of each loop iteration. -/
def qcPenalty (env : QCEnv) (good : List Bool) : List ℚ :=
  penaltyOf env (indwinOf good)

/-- The flag vector of the current iteration. -/
def qcKill (env : QCEnv) (tol : ℚ) (good : List Bool) : List Bool :=
  killOf env tol (qcPenalty env good)

theorem penaltyOf_length (env : QCEnv) (indwin : List ℕ) :
    (penaltyOf env indwin).length = indwin.length := by
  simp [penaltyOf]

theorem killOf_length (env : QCEnv) (tol : ℚ) (p : List ℚ) :
    (killOf env tol p).length = p.length := by
  simp [killOf]

theorem mem_indwinOf (good : List Bool) (i : ℕ) :
    i ∈ indwinOf good ↔ i < good.length ∧ good.getD i false = true := by
  simp [indwinOf, List.mem_filter, List.mem_range]

theorem removeWins_length (good : List Bool) (killed : List ℕ) :
    (removeWins good killed).length = good.length := by
  simp [removeWins]

theorem removeWins_getD (good : List Bool) (killed : List ℕ) (i : ℕ)
    (hi : i < good.length) :
    (removeWins good killed).getD i false =
      if i ∈ killed then false else good.getD i false := by
  simp only [removeWins, List.getD_eq_getElem?_getD, List.getElem?_map,
    List.getElem?_range hi]
  rfl

theorem removeWins_mono (good : List Bool) (killed : List ℕ) (i : ℕ)
    (h : (removeWins good killed).getD i false = true) :
    good.getD i false = true := by
  by_cases hi : i < good.length
  · rw [removeWins_getD good killed i hi] at h
    by_cases hc : i ∈ killed
    · rw [if_pos hc] at h; cases h
    · rwa [if_neg hc] at h
  · exfalso
    rw [List.getD_eq_getElem?_getD] at h
    have hnone : (removeWins good killed)[i]? = none := by
      rw [List.getElem?_eq_none]
      rw [removeWins_length]; omega
    rw [hnone] at h
    cases h

theorem selectWhere_cons {α : Type} (b m : Bool) (ms : List Bool)
    (x : α) (xs : List α) :
    selectWhere b (m :: ms) (x :: xs) =
      if m == b then x :: selectWhere b ms xs else selectWhere b ms xs := by
  cases hmb : (m == b) <;>
    simp [selectWhere, List.zip_cons_cons, List.filter_cons, hmb]

theorem selectWhere_subset {α : Type} (b : Bool) (mask : List Bool)
    (xs : List α) (y : α) (hy : y ∈ selectWhere b mask xs) : y ∈ xs := by
  simp only [selectWhere, List.mem_map, List.mem_filter] at hy
  obtain ⟨⟨bb, y2⟩, ⟨hmem, _⟩, hpr⟩ := hy
  cases hpr
  exact (List.of_mem_zip hmem).2

theorem selectWhere_true_ne_nil {α : Type} :
    ∀ (mask : List Bool) (xs : List α), mask.count true ≠ 0 →
      mask.length = xs.length → selectWhere true mask xs ≠ []
  | [], _, hc, _ => by simp at hc
  | _ :: _, [], _, hl => by simp at hl
  | b :: ms, x :: xs, hc, hl => by
    cases b
    · have hms : ms.count true ≠ 0 := by
        simpa [List.count_cons] using hc
      have ih := selectWhere_true_ne_nil ms xs hms (by simpa using hl)
      simpa [selectWhere_cons] using ih
    · simp [selectWhere_cons]

theorem filter_length_mono {α : Type} (p q : α → Bool) :
    ∀ l : List α, (∀ x ∈ l, p x = true → q x = true) →
      (l.filter p).length ≤ (l.filter q).length
  | [], _ => le_refl _
  | a :: t, h => by
    have ht := filter_length_mono p q t (fun x hx => h x (List.mem_cons_of_mem a hx))
    by_cases hp : p a = true
    · have hq := h a (List.mem_cons_self a t) hp
      simp only [List.filter_cons, hp, if_true, hq, List.length_cons]
      omega
    · have hp2 : p a = false := by simpa using hp
      cases hq : q a
      · simpa [List.filter_cons, hp2, hq] using ht
      · simp only [List.filter_cons, hp2, hq]
        simp only [Bool.false_eq_true, if_false, if_true, List.length_cons]
        omega

theorem filter_length_strict {α : Type} (p q : α → Bool) :
    ∀ l : List α, (∀ x ∈ l, p x = true → q x = true) →
      ∀ x ∈ l, q x = true → p x = false →
      (l.filter p).length < (l.filter q).length
  | [], _, x, hx, _, _ => absurd hx (List.not_mem_nil x)
  | a :: t, h, x, hx, hqx, hpx => by
    have hmono := filter_length_mono p q t (fun y hy => h y (List.mem_cons_of_mem a hy))
    rcases List.mem_cons.mp hx with rfl | hxt
    · simp only [List.filter_cons, hpx, hqx, Bool.false_eq_true, if_false,
        if_true, List.length_cons]
      omega
    · have ht := filter_length_strict p q t
        (fun y hy => h y (List.mem_cons_of_mem a hy)) x hxt hqx hpx
      by_cases hp : p a = true
      · have hq := h a (List.mem_cons_self a t) hp
        simp only [List.filter_cons, hp, hq, if_true, List.length_cons]
        omega
      · have hp2 : p a = false := by simpa using hp
        cases hq : q a
        · simpa [List.filter_cons, hp2, hq] using ht
        · simp only [List.filter_cons, hp2, hq, Bool.false_eq_true, if_false,
            if_true, List.length_cons]
          omega

theorem qcIter_eq_some {env : QCEnv} {tol alpha : ℚ} {good g2 : List Bool}
    (h : qcIter env tol alpha good = some g2) :
    ∃ killed, killed ≠ [] ∧ (∀ j ∈ killed, j ∈ indwinOf good) ∧
      g2 = removeWins good killed := by
  simp only [qcIter] at h
  by_cases h0 : (killOf env tol (penaltyOf env (indwinOf good))).count true = 0
  · simp [h0] at h
  · rw [if_neg h0] at h
    by_cases h1 : env.ftest (penaltyOf env (indwinOf good))
        (selectWhere false (killOf env tol (penaltyOf env (indwinOf good)))
          (penaltyOf env (indwinOf good))) < alpha
    · rw [if_pos h1] at h
      refine ⟨selectWhere true (killOf env tol (penaltyOf env (indwinOf good)))
        (indwinOf good), ?_, ?_, (Option.some_injective _ h).symm⟩
      · apply selectWhere_true_ne_nil _ _ h0
        rw [killOf_length, penaltyOf_length]
      · intro j hj
        exact selectWhere_subset _ _ _ _ hj
    · rw [if_neg h1] at h
      cases h

theorem qcIter_decreases {env : QCEnv} {tol alpha : ℚ} {good g2 : List Bool}
    (h : qcIter env tol alpha good = some g2) :
    (indwinOf g2).length < (indwinOf good).length := by
  obtain ⟨killed, hne, hsub, rfl⟩ := qcIter_eq_some h
  obtain ⟨j, hj⟩ := List.exists_mem_of_ne_nil killed hne
  have hj2 := (mem_indwinOf good j).mp (hsub j hj)
  simp only [indwinOf, removeWins_length]
  apply filter_length_strict _ _ _ ?_ j (List.mem_range.mpr hj2.1) hj2.2 ?_
  · intro i hi hp
    have hlt : i < good.length := List.mem_range.mp hi
    rw [removeWins_getD good killed i hlt] at hp
    by_cases hc : i ∈ killed
    · rw [if_pos hc] at hp; cases hp
    · rwa [if_neg hc] at hp
  · rw [removeWins_getD good killed j hj2.1, if_pos hj]

theorem qcLoop_total (env : QCEnv) (tol alpha : ℚ) (fuel : ℕ) :
    ∀ good : List Bool, (indwinOf good).length < fuel →
      ∃ r, qcLoop env tol alpha fuel good = some r ∧
        ∀ i, r.getD i false = true → good.getD i false = true := by
  induction fuel with
  | zero => intro good h; omega
  | succ n ih =>
    intro good h
    cases hit : qcIter env tol alpha good with
    | none => exact ⟨good, by simp [qcLoop, hit], fun i hi => hi⟩
    | some g2 =>
      have hdec := qcIter_decreases hit
      obtain ⟨r, hr, hmono⟩ := ih g2 (by omega)
      refine ⟨r, by simp [qcLoop, hit, hr], fun i hi => ?_⟩
      have hg2 := hmono i hi
      obtain ⟨killed, _, _, rfl⟩ := qcIter_eq_some hit
      exact removeWins_mono good killed i hg2

/-- Claim C3: across iterations of the QC rejection loop the good-set
is non-increasing — the final mask can only turn entries from `true`
to `false`, never back — and the loop terminates on every input: each
continuing iteration removes at least one window, so fuel equal to
the initial good-window count plus one (at most the window count plus
one) always suffices for the loop to reach its own exit condition. -/
theorem c3_qc_monotone_terminates (env : QCEnv) (tol alpha : ℚ)
    (good : List Bool) :
    ∃ r, qcLoop env tol alpha ((indwinOf good).length + 1) good = some r ∧
      ∀ i, r.getD i false = true → good.getD i false = true :=
  qcLoop_total env tol alpha _ good (Nat.lt_succ_self _)

/-- A trivial environment used to instantiate the loop theorems on
concrete inputs. -/
def qcEnv0 : QCEnv :=
  ⟨[[[1]]], fun _ => [0], fun _ => 0, fun _ => 0, fun _ => 0, fun _ _ => 0⟩

/-- Claim C3 (witness): concrete instantiation on a two-window mask. -/
theorem c3_qc_monotone_terminates_witness :
    ∃ r, qcLoop qcEnv0 1 1 ((indwinOf [true, true]).length + 1) [true, true]
        = some r ∧
      ∀ i, r.getD i false = true → [true, true].getD i false = true :=
  c3_qc_monotone_terminates qcEnv0 1 1 [true, true]

/-- Claim C2: in each iteration of the QC rejection loop, position
`ii` of the good-set is flagged iff its penalty strictly exceeds
`tol` times the (numpy) standard deviation of the good-set penalty
vector; if nothing is flagged the loop stops at once with the mask
unchanged (a fixed point); if something is flagged, the windows are
removed exactly when the F-test value on (full penalty vector,
penalty vector without the flagged entries) is strictly below
`alpha`, and otherwise the loop stops with the mask unchanged. -/
theorem c2_qc_flag_ftest (env : QCEnv) (tol alpha : ℚ) (good : List Bool) :
    (∀ (ii : ℕ) (p : ℚ), (qcPenalty env good)[ii]? = some p →
      ((qcKill env tol good)[ii]? = some true ↔
        p > tol * env.stdPen (qcPenalty env good))) ∧
    ((qcKill env tol good).count true = 0 →
      ∀ fuel, qcLoop env tol alpha (fuel + 1) good = some good) ∧
    ((qcKill env tol good).count true ≠ 0 →
      (env.ftest (qcPenalty env good)
          (selectWhere false (qcKill env tol good) (qcPenalty env good))
            < alpha →
        qcIter env tol alpha good =
          some (removeWins good
            (selectWhere true (qcKill env tol good) (indwinOf good)))) ∧
      (¬ env.ftest (qcPenalty env good)
          (selectWhere false (qcKill env tol good) (qcPenalty env good))
            < alpha →
        ∀ fuel, qcLoop env tol alpha (fuel + 1) good = some good)) := by
  refine ⟨?_, ?_, ?_⟩
  · intro ii p hp
    simp only [qcPenalty] at hp
    simp [qcKill, qcPenalty, killOf, hp]
  · intro h0 fuel
    simp only [qcKill, qcPenalty] at h0
    have hiter : qcIter env tol alpha good = none := by
      simp only [qcIter]
      rw [if_pos h0]
    simp [qcLoop, hiter]
  · intro h0
    simp only [qcKill, qcPenalty] at h0
    constructor
    · intro h1
      simp only [qcKill, qcPenalty] at h1
      simp only [qcIter, qcKill, qcPenalty]
      rw [if_neg h0, if_pos h1]
    · intro h1 fuel
      simp only [qcKill, qcPenalty] at h1
      have hiter : qcIter env tol alpha good = none := by
        simp only [qcIter]
        rw [if_neg h0, if_neg h1]
      simp [qcLoop, hiter]

/-- Claim C2 (witness): with an empty window set nothing is flagged
and the loop is a fixed point at once. -/
theorem c2_qc_flag_ftest_witness :
    qcLoop qcEnv0 1 1 1 [] = some [] :=
  (c2_qc_flag_ftest qcEnv0 1 1 []).2.1 (by decide) 0

/-! ## Spectral containers (classes.py lines 83-170)

`Power`, `Cross` and `Rotation` are plain containers whose fields
default to `None`; absence is modelled by `Option`. -/

/-- Container for power spectra for each component
(`Power.__init__`, classes.py line 98). -/
structure Power where
  c11 : Option (List Cx)
  c22 : Option (List Cx)
  cZZ : Option (List Cx)
  cPP : Option (List Cx)
deriving DecidableEq, Repr

/-- Container for cross-power spectra for each component pair
(`Cross.__init__`, classes.py line 124). -/
structure Cross where
  c12 : Option (List Cx)
  c1Z : Option (List Cx)
  c1P : Option (List Cx)
  c2Z : Option (List Cx)
  c2P : Option (List Cx)
  cZP : Option (List Cx)
deriving DecidableEq, Repr

/-- Container for rotated spectra (`Rotation.__init__`, classes.py
line 159); scalar fields are kept as rationals. -/
structure Rotation where
  cHH : Option (List Cx)
  cHZ : Option (List Cx)
  cHP : Option (List Cx)
  coh : Option (List Cx)
  ph : Option (List Cx)
  tilt : Option ℚ
  coh_value : Option ℚ
  phase_value : Option ℚ
  direc : Option (List ℚ)
deriving DecidableEq, Repr

/-! ## Station averaging (`StaNoise.average_sta_spectra`, claim C4)

Classes.py lines 914-955: every averaged quantity is
`np.sum(arr[:, gooddays]*nwins[gooddays], axis=1)/np.sum(nwins[gooddays])`,
with `ncomp` deciding which quantities exist.  Arrays are stored here
as lists of frequency rows, each row a list of per-day values. -/

/-- Boolean-mask day selection, embedding `arr[gooddays]` for a 1-D
array (and `arr[:, gooddays]` applied to one frequency row). -/
def maskSel {α : Type} (xs : List α) (good : List Bool) : List α :=
  ((xs.zip good).filter (fun pr => pr.2)).map (fun pr => pr.1)

/-- Sum of a list of complex values (embedding `np.sum(..., axis=1)`
applied to one frequency row). -/
def sumCx (l : List Cx) : Cx := l.foldr Cx.add 0

/-- The window-count-weighted station average: for every frequency
row, `Σ(day_value·day_nwins)/Σ(day_nwins)` over good days. -/
def staWavg (arr : List (List Cx)) (nw : List ℚ) (good : List Bool) : List Cx :=
  arr.map (fun row =>
    Cx.divQ
      (sumCx (List.zipWith Cx.smulQ (maskSel nw good) (maskSel row good)))
      (maskSel nw good).sum)

/-- The day-indexed spectral state of a `StaNoise` object entering
`average_sta_spectra`: the thirteen unpacked arrays, the per-day
window counts and the good-day mask. -/
structure StaNoiseArrays where
  ncomp : ℕ
  c11 : List (List Cx)
  c22 : List (List Cx)
  cZZ : List (List Cx)
  cPP : List (List Cx)
  c12 : List (List Cx)
  c1Z : List (List Cx)
  c1P : List (List Cx)
  c2Z : List (List Cx)
  c2P : List (List Cx)
  cZP : List (List Cx)
  cHH : List (List Cx)
  cHZ : List (List Cx)
  cHP : List (List Cx)
  nwins : List ℚ
  gooddays : List Bool
deriving Repr

/-- Embedding of `StaNoise.average_sta_spectra` (classes.py lines
914-955): each quantity guarded by the same `ncomp` conditionals as
the source, stored into `Power`, `Cross` and `Rotation` containers. -/
def averageStaSpectra (s : StaNoiseArrays) : Power × Cross × Rotation :=
  let w := fun arr => staWavg arr s.nwins s.gooddays
  let cZZ := some (w s.cZZ)
  let cPP := if s.ncomp = 2 ∨ s.ncomp = 4 then some (w s.cPP) else none
  let c11 := if s.ncomp = 3 ∨ s.ncomp = 4 then some (w s.c11) else none
  let c22 := if s.ncomp = 3 ∨ s.ncomp = 4 then some (w s.c22) else none
  let c12 := if s.ncomp = 3 ∨ s.ncomp = 4 then some (w s.c12) else none
  let c1Z := if s.ncomp = 3 ∨ s.ncomp = 4 then some (w s.c1Z) else none
  let c2Z := if s.ncomp = 3 ∨ s.ncomp = 4 then some (w s.c2Z) else none
  let c1P := if s.ncomp = 4 then some (w s.c1P) else none
  let c2P := if s.ncomp = 4 then some (w s.c2P) else none
  let cZP := if s.ncomp = 2 ∨ s.ncomp = 4 then some (w s.cZP) else none
  let cHH := if s.ncomp = 3 ∨ s.ncomp = 4 then some (w s.cHH) else none
  let cHZ := if s.ncomp = 3 ∨ s.ncomp = 4 then some (w s.cHZ) else none
  let cHP := if s.ncomp = 4 then some (w s.cHP) else none
  (⟨c11, c22, cZZ, cPP⟩,
   ⟨c12, c1Z, c1P, c2Z, c2P, cZP⟩,
   ⟨cHH, cHZ, cHP, none, none, none, none, none, none⟩)

theorem sumCx_zipWith_replicate (w : ℚ) :
    ∀ (sel : List Cx) (k : ℕ), sel.length = k →
      sumCx (List.zipWith Cx.smulQ (List.replicate k w) sel) =
        Cx.smulQ w (sumCx sel)
  | [], k, hk => by
    subst hk
    show (0 : Cx) = Cx.smulQ w (0 : Cx)
    show (⟨0, 0⟩ : Cx) = Cx.smulQ w ⟨0, 0⟩
    simp [Cx.smulQ]
  | x :: xs, k, hk => by
    subst hk
    simp only [List.length_cons, List.replicate_succ, List.zipWith_cons_cons]
    have ih := sumCx_zipWith_replicate w xs xs.length rfl
    simp only [sumCx, List.foldr_cons] at *
    rw [ih]
    simp only [Cx.smulQ, Cx.add]
    congr 1 <;> ring

/-- Weighted average equals the plain mean when all good-day weights
are the same nonzero `w`. -/
theorem staWavg_equal_weights (arr : List (List Cx)) (nw : List ℚ)
    (good : List Bool) (w : ℚ) (k : ℕ) (hw : w ≠ 0)
    (hsel : maskSel nw good = List.replicate k w)
    (hlen : ∀ row ∈ arr, (maskSel row good).length = k) :
    staWavg arr nw good =
      arr.map (fun row => Cx.divQ (sumCx (maskSel row good)) (k : ℚ)) := by
  apply List.map_congr_left
  intro row hrow
  rw [hsel, sumCx_zipWith_replicate w _ k (hlen row hrow)]
  rw [List.sum_replicate, nsmul_eq_mul]
  simp only [Cx.divQ, Cx.smulQ]
  rw [mul_comm (k : ℚ) w]
  congr 1 <;> exact mul_div_mul_left _ _ hw

/-- Claim C4: `StaNoise.average_sta_spectra` computes every produced
station-averaged spectrum as the window-count-weighted mean over good
days; with `ncomp = 4` all thirteen quantities are produced that way,
and whenever all good-day window counts equal a common nonzero `w`,
the weighted average collapses to the simple arithmetic mean over
good days. -/
theorem c4_station_average (s : StaNoiseArrays) (w : ℚ) (k : ℕ)
    (hw : w ≠ 0) (hsel : maskSel s.nwins s.gooddays = List.replicate k w) :
    (averageStaSpectra s).1.cZZ = some (staWavg s.cZZ s.nwins s.gooddays) ∧
    (s.ncomp = 4 → averageStaSpectra s =
      (⟨some (staWavg s.c11 s.nwins s.gooddays),
        some (staWavg s.c22 s.nwins s.gooddays),
        some (staWavg s.cZZ s.nwins s.gooddays),
        some (staWavg s.cPP s.nwins s.gooddays)⟩,
       ⟨some (staWavg s.c12 s.nwins s.gooddays),
        some (staWavg s.c1Z s.nwins s.gooddays),
        some (staWavg s.c1P s.nwins s.gooddays),
        some (staWavg s.c2Z s.nwins s.gooddays),
        some (staWavg s.c2P s.nwins s.gooddays),
        some (staWavg s.cZP s.nwins s.gooddays)⟩,
       ⟨some (staWavg s.cHH s.nwins s.gooddays),
        some (staWavg s.cHZ s.nwins s.gooddays),
        some (staWavg s.cHP s.nwins s.gooddays),
        none, none, none, none, none, none⟩)) ∧
    (∀ arr, (∀ row ∈ arr, (maskSel row s.gooddays).length = k) →
      staWavg arr s.nwins s.gooddays =
        arr.map (fun row => Cx.divQ (sumCx (maskSel row s.gooddays)) (k : ℚ))) := by
  refine ⟨rfl, ?_, ?_⟩
  · intro hn
    simp [averageStaSpectra, hn]
  · intro arr hlen
    exact staWavg_equal_weights arr s.nwins s.gooddays w k hw hsel hlen

/-- A concrete two-day station state with equal window counts. -/
def staArr0 : StaNoiseArrays :=
  { ncomp := 4
    c11 := [[⟨1, 0⟩, ⟨3, 0⟩]], c22 := [[⟨1, 0⟩, ⟨3, 0⟩]]
    cZZ := [[⟨1, 0⟩, ⟨3, 0⟩]], cPP := [[⟨1, 0⟩, ⟨3, 0⟩]]
    c12 := [[⟨1, 0⟩, ⟨3, 0⟩]], c1Z := [[⟨1, 0⟩, ⟨3, 0⟩]]
    c1P := [[⟨1, 0⟩, ⟨3, 0⟩]], c2Z := [[⟨1, 0⟩, ⟨3, 0⟩]]
    c2P := [[⟨1, 0⟩, ⟨3, 0⟩]], cZP := [[⟨1, 0⟩, ⟨3, 0⟩]]
    cHH := [[⟨1, 0⟩, ⟨3, 0⟩]], cHZ := [[⟨1, 0⟩, ⟨3, 0⟩]]
    cHP := [[⟨1, 0⟩, ⟨3, 0⟩]]
    nwins := [5, 5]
    gooddays := [true, true] }

/-- Claim C4 (witness): on `staArr0` (two good days, equal counts 5)
the hypotheses hold with `w = 5`, `k = 2`. -/
theorem c4_station_average_witness :
    (averageStaSpectra staArr0).1.cZZ =
      some (staWavg staArr0.cZZ staArr0.nwins staArr0.gooddays) ∧
    (staArr0.ncomp = 4 → averageStaSpectra staArr0 =
      (⟨some (staWavg staArr0.c11 staArr0.nwins staArr0.gooddays),
        some (staWavg staArr0.c22 staArr0.nwins staArr0.gooddays),
        some (staWavg staArr0.cZZ staArr0.nwins staArr0.gooddays),
        some (staWavg staArr0.cPP staArr0.nwins staArr0.gooddays)⟩,
       ⟨some (staWavg staArr0.c12 staArr0.nwins staArr0.gooddays),
        some (staWavg staArr0.c1Z staArr0.nwins staArr0.gooddays),
        some (staWavg staArr0.c1P staArr0.nwins staArr0.gooddays),
        some (staWavg staArr0.c2Z staArr0.nwins staArr0.gooddays),
        some (staWavg staArr0.c2P staArr0.nwins staArr0.gooddays),
        some (staWavg staArr0.cZP staArr0.nwins staArr0.gooddays)⟩,
       ⟨some (staWavg staArr0.cHH staArr0.nwins staArr0.gooddays),
        some (staWavg staArr0.cHZ staArr0.nwins staArr0.gooddays),
        some (staWavg staArr0.cHP staArr0.nwins staArr0.gooddays),
        none, none, none, none, none, none⟩)) ∧
    (∀ arr, (∀ row ∈ arr, (maskSel row staArr0.gooddays).length = 2) →
      staWavg arr staArr0.nwins staArr0.gooddays =
        arr.map (fun row =>
          Cx.divQ (sumCx (maskSel row staArr0.gooddays)) ((2 : ℕ) : ℚ))) :=
  c4_station_average staArr0 5 2 (by norm_num) (by decide)

/-! ## Transfer functions (`TFNoise.transfer_func`, claim C5)

Classes.py lines 1046-1131.  Elementwise numpy array arithmetic
becomes `zipWith`/`map`; `utils.coherence` (repository code outside
`src/`) is an explicit function parameter. -/

/-- Elementwise complex conjugate of an array (`np.conj`). -/
def lconj (a : List Cx) : List Cx := a.map Cx.conj

/-- Elementwise division of complex arrays. -/
def ldiv (a b : List Cx) : List Cx := List.zipWith Cx.div a b

/-- Elementwise product of complex arrays. -/
def lmul (a b : List Cx) : List Cx := List.zipWith Cx.mul a b

/-- Elementwise difference of complex arrays. -/
def lsub (a b : List Cx) : List Cx := List.zipWith Cx.sub a b

/-- Elementwise `1. - x` (as in `c22*(1. - coh_12)`). -/
def loneMinus (a : List Cx) : List Cx := a.map (fun z => Cx.sub Cx.one z)

/-- Coefficient arrays of the Z2-1 model entry
(`{'TF_21': ..., 'TF_Z2-1': ...}`). -/
structure TfZ21 where
  tf21 : List Cx
  tfZ21 : List Cx
deriving DecidableEq, Repr

/-- Coefficient arrays of the ZP-21 model entry. -/
structure TfZP21 where
  tfZ1 : List Cx
  tf21 : List Cx
  tfP1 : List Cx
  tfP21 : List Cx
  tfZ21 : List Cx
  tfZP21 : List Cx
deriving DecidableEq, Repr

/-- Coefficient arrays of the ZP-H model entry. -/
structure TfZPH where
  tfPH : List Cx
  tfZPH : List Cx
deriving DecidableEq, Repr

/-- The `transfunc` dictionary built by `TFNoise.transfer_func`: one
optional entry per model key, present exactly when the model's
`tf_list` flag is set. -/
structure TransFuncSet where
  zp : Option (List Cx)
  z1 : Option (List Cx)
  z21 : Option TfZ21
  zp21 : Option TfZP21
  zh : Option (List Cx)
  zph : Option TfZPH
deriving DecidableEq, Repr

/-- Embedding of `TFNoise.transfer_func` (classes.py lines
1046-1131).  The loop over `tf_list.items()` visits exactly the six
model keys; each enabled branch computes its coefficient arrays from
the averaged spectra.  `coherence` stands for `utils.coherence`. -/
def transferFunc (tfl : ModelKey → Bool)
    (c11 c22 cPP cHH cHZ cHP c12 c1Z c1P c2Z c2P cZP : List Cx)
    (coherence : List Cx → List Cx → List Cx → List Cx) : TransFuncSet :=
  { zp := if tfl ModelKey.zp then some (ldiv cZP cPP) else none
    z1 := if tfl ModelKey.z1 then some (ldiv (lconj c1Z) c11) else none
    z21 := if tfl ModelKey.z21 then
        let lc1c2 := ldiv (lconj c12) c11
        let coh12 := coherence c12 c11 c22
        let gc2c2c1 := lmul c22 (loneMinus coh12)
        let gc2cZc1 := lsub (lconj c2Z) (lconj (lmul lc1c2 c1Z))
        some ⟨lc1c2, ldiv gc2cZc1 gc2c2c1⟩
      else none
    zp21 := if tfl ModelKey.zp21 then
        let lc1cZ := ldiv (lconj c1Z) c11
        let lc1c2 := ldiv (lconj c12) c11
        let lc1cP := ldiv (lconj c1P) c11
        let coh12 := coherence c12 c11 c22
        let coh1P := coherence c1P c11 cPP
        let gc2c2c1 := lmul c22 (loneMinus coh12)
        let gcPcPc1 := lmul cPP (loneMinus coh1P)
        let gc2cZc1 := lsub (lconj c2Z) (lconj (lmul lc1c2 c1Z))
        let gcPcZc1 := lsub cZP (lconj (lmul lc1cP c1Z))
        let gc2cPc1 := lsub (lconj c2P) (lconj (lmul lc1c2 c1P))
        let lc2cPc1 := ldiv gc2cPc1 gc2c2c1
        let lc2cZc1 := ldiv gc2cZc1 gc2c2c1
        let cohc2cPc1 := coherence gc2cPc1 gc2c2c1 gcPcPc1
        let gcPcPc1c2 := lmul gcPcPc1 (loneMinus cohc2cPc1)
        let gcPcZc1c2 := lsub gcPcZc1 (lmul (lconj lc2cPc1) gc2cZc1)
        some ⟨lc1cZ, lc1c2, lc1cP, lc2cPc1, lc2cZc1, ldiv gcPcZc1c2 gcPcPc1c2⟩
      else none
    zh := if tfl ModelKey.zh then some (ldiv (lconj cHZ) cHH) else none
    zph := if tfl ModelKey.zph then
        let lcHcP := ldiv (lconj cHP) cHH
        let cohHP := coherence cHP cHH cPP
        let gcPcPcH := lmul cPP (loneMinus cohHP)
        let gcPcZcH := lsub cZP (lconj (lmul lcHcP cHZ))
        some ⟨lcHcP, ldiv gcPcZcH gcPcPcH⟩
      else none }

theorem zipWith_getD {α β γ : Type} (f : α → β → γ) (da : α) (db : β) (dc : γ) :
    ∀ (a : List α) (b : List β) (i : ℕ), i < a.length → i < b.length →
      (List.zipWith f a b).getD i dc = f (a.getD i da) (b.getD i db)
  | [], _, i, ha, _ => absurd ha (by simp)
  | _ :: _, [], i, _, hb => absurd hb (by simp)
  | x :: xs, y :: ys, 0, _, _ => rfl
  | x :: xs, y :: ys, i + 1, ha, hb => by
    simp only [List.zipWith_cons_cons, List.getD_cons_succ]
    exact zipWith_getD f da db dc xs ys i (by simpa using ha) (by simpa using hb)

/-- Claim C5: whenever the ZP model is enabled, `transfer_func`
stores under `'ZP'` the array `TF_ZP = cZP/cPP` (elementwise at every
frequency bin); consequently, if `cZP = a·cPP` for a real constant
`a` with `cPP` nonzero at every bin, then `TF_ZP` equals `a` at every
bin. -/
theorem c5_tf_zp (tfl : ModelKey → Bool)
    (c11 c22 cPP cHH cHZ cHP c12 c1Z c1P c2Z c2P cZP : List Cx)
    (coherence : List Cx → List Cx → List Cx → List Cx)
    (a : ℚ) (n : ℕ)
    (hzp : tfl ModelKey.zp = true)
    (hlZ : cZP.length = n) (hlP : cPP.length = n)
    (hprop : ∀ i, i < n → cZP.getD i 0 = Cx.mul (Cx.ofQ a) (cPP.getD i 0))
    (hnz : ∀ i, i < n → cPP.getD i 0 ≠ 0) :
    (transferFunc tfl c11 c22 cPP cHH cHZ cHP c12 c1Z c1P c2Z c2P cZP
        coherence).zp = some (ldiv cZP cPP) ∧
    (∀ i, i < n → (ldiv cZP cPP).getD i 0 = Cx.ofQ a) := by
  constructor
  · simp [transferFunc, hzp]
  · intro i hi
    rw [ldiv, zipWith_getD Cx.div 0 0 0 cZP cPP i (by omega) (by omega)]
    rw [hprop i hi]
    exact Cx.div_smul_self a _ (hnz i hi)

/-- Claim C5 (witness): one bin, `cPP = [1]`, `cZP = [2] = 2·cPP`. -/
theorem c5_tf_zp_witness :
    (transferFunc (fun _ => true) [] [] [⟨1, 0⟩] [] [] [] [] [] [] [] []
        [⟨2, 0⟩] (fun _ _ _ => [])).zp = some (ldiv [⟨2, 0⟩] [⟨1, 0⟩]) ∧
    (∀ i, i < 1 → (ldiv [⟨2, 0⟩] [⟨1, 0⟩]).getD i 0 = Cx.ofQ 2) :=
  c5_tf_zp (fun _ => true) [] [] [⟨1, 0⟩] [] [] [] [] [] [] [] [] [⟨2, 0⟩]
    (fun _ _ _ => []) 2 1 rfl rfl rfl
    (by
      intro i hi
      interval_cases i
      show (⟨2, 0⟩ : Cx) = Cx.mul (Cx.ofQ 2) ⟨1, 0⟩
      norm_num [Cx.mul, Cx.ofQ])
    (by
      intro i hi
      interval_cases i
      show (⟨1, 0⟩ : Cx) ≠ 0
      intro h
      have h2 : (1 : ℚ) = 0 := congrArg Cx.re h
      norm_num at h2)

/-! ## Event correction (`EventStream.correct_data`, claims C6, C7)

Classes.py lines 1242-1361.  Each enabled model rebuilds the full
two-sided transfer function with
`np.hstack((TF, np.conj(TF[::-1][1:len(f)-1])))`, subtracts the
predicted noise from the vertical spectrum, and keeps
`np.real(np.fft.ifft(corrspec))[0:ws]`.  `np.fft.ifft` and
`utils.rotate_dir` are function parameters. -/

/-- Python exception kinds raised by the embedded methods. -/
inductive PyErr
  | attributeError
  | emptyContainer
  | freqMismatch
deriving DecidableEq, Repr

/-- Modelled from the spec: `utils.calculate_windowed_fft` is
repository code outside `src/`; per spec section 4.1 its frequency
axis consists of the one-sided DFT bins of a length-`ws` transform,
so it has `ws/2 + 1` bins. -/
def wsFreqLen (ws : ℕ) : ℕ := ws / 2 + 1

/-- Embedding of `np.hstack((TF, np.conj(TF[::-1][1:len(f)-1])))`:
the one-sided array followed by the conjugated reversed array
restricted to indices `1 .. len(f)-2`. -/
def fullTF (flen : ℕ) (tf : List Cx) : List Cx :=
  tf ++ (((tf.reverse).drop 1).take (flen - 1 - 1)).map Cx.conj

/-- Embedding of `np.real(np.fft.ifft(corrspec))[0:ws]`: the first
`ws` samples of the real part of the inverse transform. -/
def applyCorr (ifft : List Cx → List Cx) (ws : ℕ) (spec : List Cx) : List ℚ :=
  ((ifft spec).map Cx.re).take ws

/-- The `correct` dictionary built by `EventStream.correct_data`: one
optional corrected record per model key. -/
structure CorrectD where
  zp : Option (List ℚ)
  z1 : Option (List ℚ)
  z21 : Option (List ℚ)
  zp21 : Option (List ℚ)
  zh : Option (List ℚ)
  zph : Option (List ℚ)
deriving DecidableEq, Repr

/-- Embedding of the per-model correction loop of
`EventStream.correct_data` (classes.py lines 1284-1361).  A model's
record is produced exactly when both the event's `ev_list` flag and
the transfer-function set's `tf_list` flag are set; the corrected
spectra follow the source's cascade expressions verbatim.  `ifft`
stands for `np.fft.ifft` and `rotDir` for `utils.rotate_dir`. -/
def correctData (evl tfl : ModelKey → Bool) (tfs : TransFuncSet)
    (ftZ ft1 ft2 ftP : List Cx) (flen ws : ℕ) (tilt : ℚ)
    (ifft : List Cx → List Cx)
    (rotDir : List Cx → List Cx → ℚ → List Cx) : CorrectD :=
  { zp := if evl ModelKey.zp && tfl ModelKey.zp then
      match tfs.zp with
      | some tfZP =>
        some (applyCorr ifft ws (lsub ftZ (lmul (fullTF flen tfZP) ftP)))
      | none => none
    else none
    z1 := if evl ModelKey.z1 && tfl ModelKey.z1 then
      match tfs.z1 with
      | some tfZ1 =>
        some (applyCorr ifft ws (lsub ftZ (lmul (fullTF flen tfZ1) ft1)))
      | none => none
    else none
    z21 := if evl ModelKey.z21 && tfl ModelKey.z21 then
      match tfs.z1, tfs.z21 with
      | some tfZ1, some r =>
        some (applyCorr ifft ws
          (lsub (lsub ftZ (lmul (fullTF flen tfZ1) ft1))
            (lmul (lsub ft2 (lmul ft1 (fullTF flen r.tf21)))
              (fullTF flen r.tfZ21))))
      | _, _ => none
    else none
    zp21 := if evl ModelKey.zp21 && tfl ModelKey.zp21 then
      match tfs.zp21 with
      | some r =>
        some (applyCorr ifft ws
          (lsub (lsub (lsub ftZ (lmul (fullTF flen r.tfZ1) ft1))
              (lmul (lsub ft2 (lmul ft1 (fullTF flen r.tf21)))
                (fullTF flen r.tfZ21)))
            (lmul (lsub (lsub ftP (lmul ft1 (fullTF flen r.tfP1)))
                (lmul (lsub ft2 (lmul ft1 (fullTF flen r.tf21)))
                  (fullTF flen r.tfP21)))
              (fullTF flen r.tfZP21))))
      | none => none
    else none
    zh := if evl ModelKey.zh && tfl ModelKey.zh then
      match tfs.zh with
      | some tfZH =>
        some (applyCorr ifft ws
          (lsub ftZ (lmul (fullTF flen tfZH) (rotDir ft1 ft2 tilt))))
      | none => none
    else none
    zph := if evl ModelKey.zph && tfl ModelKey.zph then
      match tfs.zh, tfs.zph with
      | some tfZH, some r =>
        some (applyCorr ifft ws
          (lsub (lsub ftZ (lmul (fullTF flen tfZH) (rotDir ft1 ft2 tilt)))
            (lmul (lsub ftP (lmul (rotDir ft1 ft2 tilt) (fullTF flen r.tfPH)))
              (fullTF flen r.tfZPH))))
      | _, _ => none
    else none }

/-- Embedding of `np.allclose(a, b)` with numpy's default tolerances
`rtol = 1e-5`, `atol = 1e-8`: every bin satisfies
`|a_i − b_i| ≤ atol + rtol·|b_i|`. -/
def npAllclose (a b : List ℚ) : Bool :=
  decide (a.length = b.length) &&
    (a.zip b).all (fun pr =>
      decide (|pr.1 - pr.2| ≤ 1 / 100000000 + (1 / 100000) * |pr.2|))

/-- Embedding of the frequency-axis check of
`EventStream.correct_data` (classes.py lines 1281-1282): the method
raises before any correction is built iff `np.allclose(f, tfnoise.f)`
fails; otherwise it proceeds to build all enabled corrections. -/
def correctDataChecked (evl tfl : ModelKey → Bool) (tfs : TransFuncSet)
    (ftZ ft1 ft2 ftP : List Cx) (f tfnF : List ℚ) (flen ws : ℕ) (tilt : ℚ)
    (ifft : List Cx → List Cx)
    (rotDir : List Cx → List Cx → ℚ → List Cx) : Except PyErr CorrectD :=
  if npAllclose f tfnF then
    Except.ok (correctData evl tfl tfs ftZ ft1 ft2 ftP flen ws tilt ifft rotDir)
  else Except.error PyErr.freqMismatch

theorem Cx.conj_conj (z : Cx) : Cx.conj (Cx.conj z) = z := by
  simp [Cx.conj]

theorem fullTF_length (tf : List Cx) (flen : ℕ) (h : tf.length = flen)
    (h2 : 2 ≤ flen) : (fullTF flen tf).length = 2 * flen - 2 := by
  simp [fullTF, h]
  omega

theorem fullTF_getElem (tf : List Cx) (flen : ℕ) (h : tf.length = flen)
    (h2 : 2 ≤ flen) (i : ℕ) :
    (fullTF flen tf)[i]? =
      if i < flen then tf[i]?
      else if i < 2 * flen - 2 then (tf[2 * flen - 2 - i]?).map Cx.conj
      else none := by
  by_cases h1 : i < flen
  · rw [if_pos h1, fullTF, List.getElem?_append_left (by omega)]
  · rw [if_neg h1]
    by_cases hw : i < 2 * flen - 2
    · rw [if_pos hw, fullTF, List.getElem?_append_right (by omega)]
      rw [List.getElem?_map, List.getElem?_take]
      rw [if_pos (by omega), List.getElem?_drop]
      rw [List.getElem?_reverse (by omega)]
      congr 2
      omega
    · rw [if_neg hw, List.getElem?_eq_none]
      rw [fullTF_length tf flen h h2]
      omega

theorem fullTF_hermitian (tf : List Cx) (flen ws : ℕ) (h : tf.length = flen)
    (h2 : 2 ≤ flen) (hws : ws = 2 * flen - 2) (k : ℕ)
    (hk0 : 0 < k) (hkw : k < ws) (hkn : k ≠ flen - 1) :
    (fullTF flen tf)[ws - k]? = ((fullTF flen tf)[k]?).map Cx.conj := by
  subst hws
  by_cases hlo : k < flen
  · have hk2 : k ≤ flen - 2 := by omega
    rw [fullTF_getElem tf flen h h2, fullTF_getElem tf flen h h2]
    rw [if_neg (by omega), if_pos (by omega), if_pos hlo]
    congr 2
    omega
  · rw [fullTF_getElem tf flen h h2, fullTF_getElem tf flen h h2]
    rw [if_pos (by omega), if_neg hlo, if_pos (by omega)]
    cases hx : tf[2 * flen - 2 - k]? with
    | none => simp [hx]
    | some z => simp [hx, Cx.conj_conj]

/-- Claim C6: for every enabled model, `correct_data` rebuilds each
one-sided transfer-function array `TF` of length `len(f)` into
`hstack(TF, conj(reverse(TF)[1:len(f)-1]))`; with `len(f) = ws/2+1`
(one-sided axis of a length-`ws` transform, `ws` even) the rebuilt
array has total length `2·len(f)-2 = ws` and is Hermitian-symmetric
away from the DC and Nyquist bins; and the record stored under each
enabled model's key is the first `ws` samples of the real part of the
inverse FFT of the corrected spectrum. -/
theorem c6_reconstruction (evl tfl : ModelKey → Bool) (tfs : TransFuncSet)
    (ftZ ft1 ft2 ftP : List Cx) (flen ws : ℕ) (tilt : ℚ)
    (ifft : List Cx → List Cx) (rotDir : List Cx → List Cx → ℚ → List Cx)
    (tfZP tfZ1 : List Cx) (r21 : TfZ21) (r4 : TfZP21) (tfZH : List Cx)
    (rph : TfZPH)
    (hws : ws % 2 = 0) (hflen : flen = wsFreqLen ws) (h2 : 2 ≤ flen)
    (hev : ∀ k, evl k = true) (htf : ∀ k, tfl k = true)
    (hs1 : tfs.zp = some tfZP) (hs2 : tfs.z1 = some tfZ1)
    (hs3 : tfs.z21 = some r21) (hs4 : tfs.zp21 = some r4)
    (hs5 : tfs.zh = some tfZH) (hs6 : tfs.zph = some rph) :
    (∀ tfx : List Cx, tfx.length = flen →
      (fullTF flen tfx).length = ws ∧
      ∀ k, 0 < k → k < ws → k ≠ flen - 1 →
        (fullTF flen tfx)[ws - k]? = ((fullTF flen tfx)[k]?).map Cx.conj) ∧
    (correctData evl tfl tfs ftZ ft1 ft2 ftP flen ws tilt ifft rotDir).zp =
      some (((ifft (lsub ftZ (lmul (fullTF flen tfZP) ftP))).map
        Cx.re).take ws) ∧
    (correctData evl tfl tfs ftZ ft1 ft2 ftP flen ws tilt ifft rotDir).z1 =
      some (((ifft (lsub ftZ (lmul (fullTF flen tfZ1) ft1))).map
        Cx.re).take ws) ∧
    (correctData evl tfl tfs ftZ ft1 ft2 ftP flen ws tilt ifft rotDir).z21 =
      some (((ifft (lsub (lsub ftZ (lmul (fullTF flen tfZ1) ft1))
        (lmul (lsub ft2 (lmul ft1 (fullTF flen r21.tf21)))
          (fullTF flen r21.tfZ21)))).map Cx.re).take ws) ∧
    (correctData evl tfl tfs ftZ ft1 ft2 ftP flen ws tilt ifft rotDir).zp21 =
      some (((ifft (lsub (lsub (lsub ftZ (lmul (fullTF flen r4.tfZ1) ft1))
          (lmul (lsub ft2 (lmul ft1 (fullTF flen r4.tf21)))
            (fullTF flen r4.tfZ21)))
        (lmul (lsub (lsub ftP (lmul ft1 (fullTF flen r4.tfP1)))
            (lmul (lsub ft2 (lmul ft1 (fullTF flen r4.tf21)))
              (fullTF flen r4.tfP21)))
          (fullTF flen r4.tfZP21)))).map Cx.re).take ws) ∧
    (correctData evl tfl tfs ftZ ft1 ft2 ftP flen ws tilt ifft rotDir).zh =
      some (((ifft (lsub ftZ (lmul (fullTF flen tfZH)
        (rotDir ft1 ft2 tilt)))).map Cx.re).take ws) ∧
    (correctData evl tfl tfs ftZ ft1 ft2 ftP flen ws tilt ifft rotDir).zph =
      some (((ifft (lsub (lsub ftZ (lmul (fullTF flen tfZH)
          (rotDir ft1 ft2 tilt)))
        (lmul (lsub ftP (lmul (rotDir ft1 ft2 tilt) (fullTF flen rph.tfPH)))
          (fullTF flen rph.tfZPH)))).map Cx.re).take ws) := by
  have hws2 : ws = 2 * flen - 2 := by
    simp only [wsFreqLen] at hflen
    omega
  refine ⟨fun tfx hlen => ⟨?_, fun k hk0 hkw hkn => ?_⟩, ?_, ?_, ?_, ?_, ?_, ?_⟩
  · rw [fullTF_length tfx flen hlen h2]; omega
  · exact fullTF_hermitian tfx flen ws hlen h2 hws2 k hk0 hkw hkn
  all_goals
    simp [correctData, applyCorr, hev, htf, hs1, hs2, hs3, hs4, hs5, hs6]

/-- Claim C6 (witness): concrete instantiation with `ws = 2`,
`len(f) = 2`, identity `ifft`, all six models enabled. -/
theorem c6_reconstruction_witness :
    (∀ tfx : List Cx, tfx.length = 2 →
      (fullTF 2 tfx).length = 2 ∧
      ∀ k, 0 < k → k < 2 → k ≠ 2 - 1 →
        (fullTF 2 tfx)[2 - k]? = ((fullTF 2 tfx)[k]?).map Cx.conj) ∧
    (correctData (fun _ => true) (fun _ => true)
        ⟨some [], some [], some ⟨[], []⟩, some ⟨[], [], [], [], [], []⟩,
          some [], some ⟨[], []⟩⟩ [] [] [] [] 2 2 0 (fun l => l)
        (fun a _ _ => a)).zp =
      some ((((fun l : List Cx => l)
        (lsub [] (lmul (fullTF 2 []) []))).map Cx.re).take 2) ∧
    (correctData (fun _ => true) (fun _ => true)
        ⟨some [], some [], some ⟨[], []⟩, some ⟨[], [], [], [], [], []⟩,
          some [], some ⟨[], []⟩⟩ [] [] [] [] 2 2 0 (fun l => l)
        (fun a _ _ => a)).z1 =
      some ((((fun l : List Cx => l)
        (lsub [] (lmul (fullTF 2 []) []))).map Cx.re).take 2) ∧
    (correctData (fun _ => true) (fun _ => true)
        ⟨some [], some [], some ⟨[], []⟩, some ⟨[], [], [], [], [], []⟩,
          some [], some ⟨[], []⟩⟩ [] [] [] [] 2 2 0 (fun l => l)
        (fun a _ _ => a)).z21 =
      some ((((fun l : List Cx => l)
        (lsub (lsub [] (lmul (fullTF 2 []) []))
          (lmul (lsub [] (lmul [] (fullTF 2 (TfZ21.tf21 ⟨[], []⟩))))
            (fullTF 2 (TfZ21.tfZ21 ⟨[], []⟩))))).map Cx.re).take 2) ∧
    (correctData (fun _ => true) (fun _ => true)
        ⟨some [], some [], some ⟨[], []⟩, some ⟨[], [], [], [], [], []⟩,
          some [], some ⟨[], []⟩⟩ [] [] [] [] 2 2 0 (fun l => l)
        (fun a _ _ => a)).zp21 =
      some ((((fun l : List Cx => l)
        (lsub (lsub (lsub []
            (lmul (fullTF 2 (TfZP21.tfZ1 ⟨[], [], [], [], [], []⟩)) []))
          (lmul (lsub [] (lmul []
              (fullTF 2 (TfZP21.tf21 ⟨[], [], [], [], [], []⟩))))
            (fullTF 2 (TfZP21.tfZ21 ⟨[], [], [], [], [], []⟩))))
        (lmul (lsub (lsub []
            (lmul [] (fullTF 2 (TfZP21.tfP1 ⟨[], [], [], [], [], []⟩))))
          (lmul (lsub [] (lmul []
              (fullTF 2 (TfZP21.tf21 ⟨[], [], [], [], [], []⟩))))
            (fullTF 2 (TfZP21.tfP21 ⟨[], [], [], [], [], []⟩))))
          (fullTF 2 (TfZP21.tfZP21 ⟨[], [], [], [], [], []⟩))))).map
        Cx.re).take 2) ∧
    (correctData (fun _ => true) (fun _ => true)
        ⟨some [], some [], some ⟨[], []⟩, some ⟨[], [], [], [], [], []⟩,
          some [], some ⟨[], []⟩⟩ [] [] [] [] 2 2 0 (fun l => l)
        (fun a _ _ => a)).zh =
      some ((((fun l : List Cx => l)
        (lsub [] (lmul (fullTF 2 [])
          ((fun a _ _ => a : List Cx → List Cx → ℚ → List Cx)
            [] [] 0)))).map Cx.re).take 2) ∧
    (correctData (fun _ => true) (fun _ => true)
        ⟨some [], some [], some ⟨[], []⟩, some ⟨[], [], [], [], [], []⟩,
          some [], some ⟨[], []⟩⟩ [] [] [] [] 2 2 0 (fun l => l)
        (fun a _ _ => a)).zph =
      some ((((fun l : List Cx => l)
        (lsub (lsub [] (lmul (fullTF 2 [])
            ((fun a _ _ => a : List Cx → List Cx → ℚ → List Cx) [] [] 0)))
        (lmul (lsub [] (lmul
            ((fun a _ _ => a : List Cx → List Cx → ℚ → List Cx) [] [] 0)
            (fullTF 2 (TfZPH.tfPH ⟨[], []⟩))))
          (fullTF 2 (TfZPH.tfZPH ⟨[], []⟩))))).map Cx.re).take 2) :=
  c6_reconstruction (fun _ => true) (fun _ => true)
    ⟨some [], some [], some ⟨[], []⟩, some ⟨[], [], [], [], [], []⟩,
      some [], some ⟨[], []⟩⟩ [] [] [] [] 2 2 0 (fun l => l)
    (fun a _ _ => a) [] [] ⟨[], []⟩ ⟨[], [], [], [], [], []⟩ [] ⟨[], []⟩
    rfl rfl (le_refl 2) (fun _ => rfl) (fun _ => rfl)
    rfl rfl rfl rfl rfl rfl

theorem npAllclose_self : ∀ f : List ℚ, npAllclose f f = true
  | [] => rfl
  | x :: xs => by
    have ih := npAllclose_self xs
    simp only [npAllclose, List.zip_cons_cons, List.all_cons, List.length_cons,
      Bool.and_eq_true, decide_eq_true_eq] at ih ⊢
    refine ⟨trivial, ?_, ih.2⟩
    rw [sub_self, abs_zero]
    positivity

/-- Claim C7 (counterexample): the claim fails on the code — the
check is `np.allclose`, not bin-for-bin equality.  With event axis
`[0]` and transfer-function axis `[10⁻⁹]` the two axes differ at bin
0, yet `allclose` accepts them (`|0 − 10⁻⁹| ≤ 10⁻⁸ + 10⁻⁵·10⁻⁹`), so
no frequency-mismatch error is raised and correction proceeds. -/
theorem c7_counterexample :
    ([0] : List ℚ) ≠ [1 / 1000000000] ∧
    correctDataChecked (fun _ => false) (fun _ => false)
        ⟨none, none, none, none, none, none⟩ [] [] [] []
        [0] [1 / 1000000000] 2 2 0 (fun l => l) (fun a _ _ => a) =
      Except.ok (correctData (fun _ => false) (fun _ => false)
        ⟨none, none, none, none, none, none⟩ [] [] [] [] 2 2 0
        (fun l => l) (fun a _ _ => a)) := by
  constructor
  · intro h
    injection h with h1 _
    norm_num at h1
  · have hc : npAllclose [0] [1 / 1000000000] = true := by
      simp only [npAllclose, List.zip_cons_cons, List.zip_nil_right,
        List.all_cons, List.all_nil, Bool.and_eq_true, decide_eq_true_eq]
      rw [show |(0 : ℚ) - 1 / 1000000000| = 1 / 1000000000 by
          rw [zero_sub, abs_neg]; exact abs_of_nonneg (by norm_num),
        show |(1 : ℚ) / 1000000000| = 1 / 1000000000 from
          abs_of_nonneg (by norm_num)]
      norm_num
    unfold correctDataChecked
    rw [if_pos hc]

/-- Claim C7 (amended): `correct_data` raises the
frequency-axis-mismatch error — aborting with no correction
dictionary produced — iff the event axis fails numpy's `allclose`
elementwise tolerance test against the transfer-function set's axis;
exact bin-for-bin equality always passes the test, in which case
correction proceeds for every enabled model. -/
theorem c7_axis_check (evl tfl : ModelKey → Bool) (tfs : TransFuncSet)
    (ftZ ft1 ft2 ftP : List Cx) (f tfnF : List ℚ) (flen ws : ℕ) (tilt : ℚ)
    (ifft : List Cx → List Cx)
    (rotDir : List Cx → List Cx → ℚ → List Cx) :
    (correctDataChecked evl tfl tfs ftZ ft1 ft2 ftP f tfnF flen ws tilt
        ifft rotDir = Except.error PyErr.freqMismatch ↔
      npAllclose f tfnF = false) ∧
    (f = tfnF →
      correctDataChecked evl tfl tfs ftZ ft1 ft2 ftP f tfnF flen ws tilt
          ifft rotDir =
        Except.ok (correctData evl tfl tfs ftZ ft1 ft2 ftP flen ws tilt
          ifft rotDir)) := by
  constructor
  · cases hc : npAllclose f tfnF <;> simp [correctDataChecked, hc]
  · intro hf
    subst hf
    simp [correctDataChecked, npAllclose_self]

/-- Claim C7 (witness): identical axes pass the check and the
correction dictionary is produced. -/
theorem c7_axis_check_witness :
    correctDataChecked (fun _ => false) (fun _ => false)
        ⟨none, none, none, none, none, none⟩ [] [] [] []
        [1] [1] 2 2 0 (fun l => l) (fun a _ _ => a) =
      Except.ok (correctData (fun _ => false) (fun _ => false)
        ⟨none, none, none, none, none, none⟩ [] [] [] [] 2 2 0
        (fun l => l) (fun a _ _ => a)) :=
  (c7_axis_check (fun _ => false) (fun _ => false)
    ⟨none, none, none, none, none, none⟩ [] [] [] [] [1] [1] 2 2 0
    (fun l => l) (fun a _ _ => a)).2 rfl

/-! ## Container emptiness check in `StaNoise.__init__` and
`TFNoise.__init__` (claim C8)

Classes.py lines 723-726 and 1016-1019 both begin with
`all(value == None for value in power.values())` followed by the same
test on `cross`.  `Power` and `Cross` (lines 83-130) are plain
`object` subclasses defining only `__init__`; neither defines a
`values` attribute, so the lookup `power.values` raises
`AttributeError` before any emptiness comparison is evaluated. -/

/-- Embedding of the attribute access `power.values()`: the `Power`
class defines no `values` attribute, so the access raises
`AttributeError` on every instance. -/
def Power.pyValues (_p : Power) : Except PyErr (List (Option (List Cx))) :=
  Except.error PyErr.attributeError

/-- Embedding of `cross.values()`: likewise absent on `Cross`. -/
def Cross.pyValues (_c : Cross) : Except PyErr (List (Option (List Cx))) :=
  Except.error PyErr.attributeError

/-- Embedding of the two opening checks shared verbatim by
`StaNoise.__init__` (classes.py lines 723-726) and `TFNoise.__init__`
(lines 1016-1019): evaluate `power.values()` and raise the
empty-container error if every field is `None`, then the same for
`cross`; only then does construction proceed. -/
def containerEmptyCheck (p : Power) (c : Cross) : Except PyErr Unit := do
  let pv ← Power.pyValues p
  if pv.all Option.isNone then Except.error PyErr.emptyContainer
  else do
    let cv ← Cross.pyValues c
    if cv.all Option.isNone then Except.error PyErr.emptyContainer
    else Except.ok ()

/-- Claim C8 (code bug): the spec's intent — raise the
empty-container error exactly for all-absent containers, pass
populated ones — cannot occur: because `Power` and `Cross` define no
`values()` method, the very first attribute lookup raises
`AttributeError` for every input, populated containers included, so
`StaNoise.__init__` and `TFNoise.__init__` never reach the emptiness
test. -/
theorem c8_empty_check_always_raises (p : Power) (c : Cross) :
    containerEmptyCheck p c = Except.error PyErr.attributeError := rfl

/-! ## The save methods (claim C9)

`DayNoise.save` (classes.py lines 672-681) deletes the four raw
traces; `StaNoise.save` (lines 972-987) deletes the ten unpacked
power/cross arrays — but not the unpacked rotation arrays `cHH`,
`cHZ`, `cHP` nor `tilt`; `TFNoise.save` (lines 1143-1160) deletes
all thirteen unpacked arrays.  Each then pickles the object, which
writes a file and leaves the in-memory object unchanged.  Attribute
presence is modelled with `Option`; `del` on an absent attribute
raises `AttributeError`. -/

/-- Embedding of `del self.attr`: removes the attribute, raising
`AttributeError` when it is already absent. -/
def pyDel {α : Type} (o : Option α) : Except PyErr (Option α) :=
  match o with
  | none => Except.error PyErr.attributeError
  | some _ => Except.ok none

/-- Attribute state of a `DayNoise` object at `save` time. -/
structure DayNoiseState where
  tr1 : Option (List ℚ)
  tr2 : Option (List ℚ)
  trZ : Option (List ℚ)
  trP : Option (List ℚ)
  window : ℚ
  overlap : ℚ
  goodwins : Option (List Bool)
  power : Option Power
  cross : Option Cross
  rotation : Option Rotation
  tf_list : Option (List Bool)
deriving DecidableEq, Repr

/-- Embedding of `DayNoise.save`: delete the four raw traces, then
pickle (no further state change). -/
def daySave (s : DayNoiseState) : Except PyErr DayNoiseState := do
  let t1 ← pyDel s.tr1
  let t2 ← pyDel s.tr2
  let tZ ← pyDel s.trZ
  let tP ← pyDel s.trP
  Except.ok { s with tr1 := t1, tr2 := t2, trZ := tZ, trP := tP }

/-- Attribute state of a `StaNoise` object at `save` time. -/
structure StaNoiseState where
  c11 : Option (List Cx)
  c22 : Option (List Cx)
  cZZ : Option (List Cx)
  cPP : Option (List Cx)
  c12 : Option (List Cx)
  c1Z : Option (List Cx)
  c1P : Option (List Cx)
  c2Z : Option (List Cx)
  c2P : Option (List Cx)
  cZP : Option (List Cx)
  cHH : Option (List Cx)
  cHZ : Option (List Cx)
  cHP : Option (List Cx)
  tilt : Option ℚ
  f : List ℚ
  nwins : List ℚ
  gooddays : Option (List Bool)
  power : Option Power
  cross : Option Cross
  rotation : Option Rotation
  tf_list : Option (List Bool)
deriving DecidableEq, Repr

/-- Embedding of `StaNoise.save`: delete the ten unpacked power and
cross arrays (classes.py lines 974-983), then pickle. -/
def staSave (s : StaNoiseState) : Except PyErr StaNoiseState := do
  let a1 ← pyDel s.c11
  let a2 ← pyDel s.c22
  let a3 ← pyDel s.cZZ
  let a4 ← pyDel s.cPP
  let a5 ← pyDel s.c12
  let a6 ← pyDel s.c1Z
  let a7 ← pyDel s.c1P
  let a8 ← pyDel s.c2Z
  let a9 ← pyDel s.c2P
  let a10 ← pyDel s.cZP
  Except.ok
    { s with
      c11 := a1
      c22 := a2
      cZZ := a3
      cPP := a4
      c12 := a5
      c1Z := a6
      c1P := a7
      c2Z := a8
      c2P := a9
      cZP := a10 }

/-- Attribute state of a `TFNoise` object at `save` time. -/
structure TFNoiseState where
  f : List ℚ
  c11 : Option (List Cx)
  c22 : Option (List Cx)
  cZZ : Option (List Cx)
  cPP : Option (List Cx)
  cHH : Option (List Cx)
  cHZ : Option (List Cx)
  cHP : Option (List Cx)
  c12 : Option (List Cx)
  c1Z : Option (List Cx)
  c1P : Option (List Cx)
  c2Z : Option (List Cx)
  c2P : Option (List Cx)
  cZP : Option (List Cx)
  tilt : Option ℚ
  tf_list : Option (List Bool)
  transfunc : Option TransFuncSet
deriving DecidableEq, Repr

/-- Embedding of `TFNoise.save`: delete all thirteen unpacked arrays
(classes.py lines 1145-1157), then pickle. -/
def tfSave (s : TFNoiseState) : Except PyErr TFNoiseState := do
  let a1 ← pyDel s.c11
  let a2 ← pyDel s.c22
  let a3 ← pyDel s.cZZ
  let a4 ← pyDel s.cPP
  let a5 ← pyDel s.cHH
  let a6 ← pyDel s.cHZ
  let a7 ← pyDel s.cHP
  let a8 ← pyDel s.c12
  let a9 ← pyDel s.c1Z
  let a10 ← pyDel s.c1P
  let a11 ← pyDel s.c2Z
  let a12 ← pyDel s.c2P
  let a13 ← pyDel s.cZP
  Except.ok
    { s with
      c11 := a1
      c22 := a2
      cZZ := a3
      cPP := a4
      cHH := a5
      cHZ := a6
      cHP := a7
      c12 := a8
      c1Z := a9
      c1P := a10
      c2Z := a11
      c2P := a12
      cZP := a13 }

/-- A fully populated `StaNoise` attribute state. -/
def staS0 : StaNoiseState :=
  { c11 := some [⟨1, 0⟩]
    c22 := some [⟨1, 0⟩]
    cZZ := some [⟨1, 0⟩]
    cPP := some [⟨1, 0⟩]
    c12 := some [⟨1, 0⟩]
    c1Z := some [⟨1, 0⟩]
    c1P := some [⟨1, 0⟩]
    c2Z := some [⟨1, 0⟩]
    c2P := some [⟨1, 0⟩]
    cZP := some [⟨1, 0⟩]
    cHH := some [⟨1, 0⟩]
    cHZ := some [⟨1, 0⟩]
    cHP := some [⟨1, 0⟩]
    tilt := some 0
    f := [0]
    nwins := [1]
    gooddays := some [true]
    power := none
    cross := none
    rotation := none
    tf_list := none }

/-- The state after `StaNoise.save` on `staS0`: the ten power/cross
arrays deleted, everything else as before. -/
def staS1 : StaNoiseState :=
  { staS0 with
    c11 := none
    c22 := none
    cZZ := none
    cPP := none
    c12 := none
    c1Z := none
    c1P := none
    c2Z := none
    c2P := none
    cZP := none }

/-- Claim C9 (counterexample): the claim fails on the code —
`StaNoise.save` does not delete all the unpacked spectral-array
attributes: on a fully populated state it deletes the ten power and
cross arrays but leaves the unpacked rotation array `cHH` (and `cHZ`,
`cHP`) in place. -/
theorem c9_counterexample :
    staSave staS0 = Except.ok staS1 ∧ staS1.cHH = some [⟨1, 0⟩] := by
  constructor <;> rfl

theorem exceptBind_ok {ε α β : Type} (a : α) (f : α → Except ε β) :
    (Except.ok a >>= f : Except ε β) = f a := rfl

theorem exceptBind_err {ε α β : Type} (e : ε) (f : α → Except ε β) :
    ((Except.error e : Except ε α) >>= f) = Except.error e := rfl

/-- Claim C9 (amended): the save methods mutate the live object
before pickling — `DayNoise.save` deletes exactly the four raw trace
attributes, `StaNoise.save` deletes exactly the ten unpacked
power/cross arrays (keeping `cHH`, `cHZ`, `cHP` and `tilt`), and
`TFNoise.save` deletes all thirteen unpacked spectral arrays — while
leaving every other attribute (window parameters, goodwins/gooddays,
power, cross, rotation, tf_list, transfunc) unchanged; consequently a
second save on the same object raises an attribute error. -/
theorem c9_save_mutations (d : DayNoiseState) (s : StaNoiseState)
    (t : TFNoiseState)
    (hd1 : d.tr1.isSome = true) (hd2 : d.tr2.isSome = true)
    (hd3 : d.trZ.isSome = true) (hd4 : d.trP.isSome = true)
    (hs1 : s.c11.isSome = true) (hs2 : s.c22.isSome = true)
    (hs3 : s.cZZ.isSome = true) (hs4 : s.cPP.isSome = true)
    (hs5 : s.c12.isSome = true) (hs6 : s.c1Z.isSome = true)
    (hs7 : s.c1P.isSome = true) (hs8 : s.c2Z.isSome = true)
    (hs9 : s.c2P.isSome = true) (hs10 : s.cZP.isSome = true)
    (ht1 : t.c11.isSome = true) (ht2 : t.c22.isSome = true)
    (ht3 : t.cZZ.isSome = true) (ht4 : t.cPP.isSome = true)
    (ht5 : t.cHH.isSome = true) (ht6 : t.cHZ.isSome = true)
    (ht7 : t.cHP.isSome = true) (ht8 : t.c12.isSome = true)
    (ht9 : t.c1Z.isSome = true) (ht10 : t.c1P.isSome = true)
    (ht11 : t.c2Z.isSome = true) (ht12 : t.c2P.isSome = true)
    (ht13 : t.cZP.isSome = true) :
    daySave d = Except.ok
      { d with tr1 := none, tr2 := none, trZ := none, trP := none } ∧
    daySave { d with tr1 := none, tr2 := none, trZ := none, trP := none } =
      Except.error PyErr.attributeError ∧
    staSave s = Except.ok
      { s with c11 := none, c22 := none, cZZ := none, cPP := none, c12 := none, c1Z := none, c1P := none, c2Z := none, c2P := none, cZP := none } ∧
    staSave { s with c11 := none, c22 := none, cZZ := none, cPP := none, c12 := none, c1Z := none, c1P := none, c2Z := none, c2P := none, cZP := none } =
      Except.error PyErr.attributeError ∧
    tfSave t = Except.ok
      { t with c11 := none, c22 := none, cZZ := none, cPP := none, cHH := none, cHZ := none, cHP := none, c12 := none, c1Z := none, c1P := none, c2Z := none, c2P := none, cZP := none } ∧
    tfSave { t with c11 := none, c22 := none, cZZ := none, cPP := none, cHH := none, cHZ := none, cHP := none, c12 := none, c1Z := none, c1P := none, c2Z := none, c2P := none, cZP := none } =
      Except.error PyErr.attributeError := by
  obtain ⟨d1, hv1⟩ := Option.isSome_iff_exists.mp hd1
  obtain ⟨d2, hv2⟩ := Option.isSome_iff_exists.mp hd2
  obtain ⟨d3, hv3⟩ := Option.isSome_iff_exists.mp hd3
  obtain ⟨d4, hv4⟩ := Option.isSome_iff_exists.mp hd4
  obtain ⟨s1, hw1⟩ := Option.isSome_iff_exists.mp hs1
  obtain ⟨s2, hw2⟩ := Option.isSome_iff_exists.mp hs2
  obtain ⟨s3, hw3⟩ := Option.isSome_iff_exists.mp hs3
  obtain ⟨s4, hw4⟩ := Option.isSome_iff_exists.mp hs4
  obtain ⟨s5, hw5⟩ := Option.isSome_iff_exists.mp hs5
  obtain ⟨s6, hw6⟩ := Option.isSome_iff_exists.mp hs6
  obtain ⟨s7, hw7⟩ := Option.isSome_iff_exists.mp hs7
  obtain ⟨s8, hw8⟩ := Option.isSome_iff_exists.mp hs8
  obtain ⟨s9, hw9⟩ := Option.isSome_iff_exists.mp hs9
  obtain ⟨s10, hw10⟩ := Option.isSome_iff_exists.mp hs10
  obtain ⟨t1, hx1⟩ := Option.isSome_iff_exists.mp ht1
  obtain ⟨t2, hx2⟩ := Option.isSome_iff_exists.mp ht2
  obtain ⟨t3, hx3⟩ := Option.isSome_iff_exists.mp ht3
  obtain ⟨t4, hx4⟩ := Option.isSome_iff_exists.mp ht4
  obtain ⟨t5, hx5⟩ := Option.isSome_iff_exists.mp ht5
  obtain ⟨t6, hx6⟩ := Option.isSome_iff_exists.mp ht6
  obtain ⟨t7, hx7⟩ := Option.isSome_iff_exists.mp ht7
  obtain ⟨t8, hx8⟩ := Option.isSome_iff_exists.mp ht8
  obtain ⟨t9, hx9⟩ := Option.isSome_iff_exists.mp ht9
  obtain ⟨t10, hx10⟩ := Option.isSome_iff_exists.mp ht10
  obtain ⟨t11, hx11⟩ := Option.isSome_iff_exists.mp ht11
  obtain ⟨t12, hx12⟩ := Option.isSome_iff_exists.mp ht12
  obtain ⟨t13, hx13⟩ := Option.isSome_iff_exists.mp ht13
  refine ⟨?_, rfl, ?_, rfl, ?_, rfl⟩
  · simp [daySave, pyDel, hv1, hv2, hv3, hv4, exceptBind_ok]
  · simp [staSave, pyDel, hw1, hw2, hw3, hw4, hw5, hw6, hw7, hw8, hw9, hw10,
      exceptBind_ok]
  · simp [tfSave, pyDel, hx1, hx2, hx3, hx4, hx5, hx6, hx7, hx8, hx9, hx10,
      hx11, hx12, hx13, exceptBind_ok]

/-- A fully populated `DayNoise` attribute state. -/
def dayS0 : DayNoiseState :=
  { tr1 := some [1]
    tr2 := some [1]
    trZ := some [1]
    trP := some [1]
    window := 7200
    overlap := 3 / 10
    goodwins := some [true]
    power := none
    cross := none
    rotation := none
    tf_list := none }

/-- A fully populated `TFNoise` attribute state. -/
def tfS0 : TFNoiseState :=
  { f := [0]
    c11 := some [⟨1, 0⟩]
    c22 := some [⟨1, 0⟩]
    cZZ := some [⟨1, 0⟩]
    cPP := some [⟨1, 0⟩]
    cHH := some [⟨1, 0⟩]
    cHZ := some [⟨1, 0⟩]
    cHP := some [⟨1, 0⟩]
    c12 := some [⟨1, 0⟩]
    c1Z := some [⟨1, 0⟩]
    c1P := some [⟨1, 0⟩]
    c2Z := some [⟨1, 0⟩]
    c2P := some [⟨1, 0⟩]
    cZP := some [⟨1, 0⟩]
    tilt := some 0
    tf_list := none
    transfunc := none }

/-- Claim C9 (witness): concrete instantiation on fully populated
states. -/
theorem c9_save_mutations_witness :
    daySave dayS0 = Except.ok
      { dayS0 with tr1 := none, tr2 := none, trZ := none, trP := none } ∧
    daySave { dayS0 with tr1 := none, tr2 := none, trZ := none, trP := none } =
      Except.error PyErr.attributeError ∧
    staSave staS0 = Except.ok
      { staS0 with c11 := none, c22 := none, cZZ := none, cPP := none, c12 := none, c1Z := none, c1P := none, c2Z := none, c2P := none, cZP := none } ∧
    staSave { staS0 with c11 := none, c22 := none, cZZ := none, cPP := none, c12 := none, c1Z := none, c1P := none, c2Z := none, c2P := none, cZP := none } =
      Except.error PyErr.attributeError ∧
    tfSave tfS0 = Except.ok
      { tfS0 with c11 := none, c22 := none, cZZ := none, cPP := none, cHH := none, cHZ := none, cHP := none, c12 := none, c1Z := none, c1P := none, c2Z := none, c2P := none, cZP := none } ∧
    tfSave { tfS0 with c11 := none, c22 := none, cZZ := none, cPP := none, cHH := none, cHZ := none, cHP := none, c12 := none, c1Z := none, c1P := none, c2Z := none, c2P := none, cZP := none } =
      Except.error PyErr.attributeError :=
  c9_save_mutations dayS0 staS0 tfS0 rfl rfl rfl rfl rfl rfl rfl rfl rfl rfl
    rfl rfl rfl rfl rfl rfl rfl rfl rfl rfl rfl rfl rfl rfl rfl rfl rfl
